import Mathlib

/-!
ICSSG Ethernet driver header (`drivers/net/ethernet/ti/icssg_prueth.h`)

A shallow embedding of the constants, enumerations, structure declarations and the
inline helper `prueth_emac_slice` of the header, followed by the properties that the
specification states about them.
-/

namespace Prueth

/-! ## Constants of the header -/

/-- Macro `#define ICSS_SLICE0 0` -/
def ICSS_SLICE0 : Int := 0
/-- Macro `#define ICSS_SLICE1 1` -/
def ICSS_SLICE1 : Int := 1

/-- Macro `#define ICSS_HS_CMD_BUSY 0x40000000` -/
def ICSS_HS_CMD_BUSY : Nat := 0x40000000
/-- Macro `#define ICSS_HS_CMD_DONE 0x80000000` -/
def ICSS_HS_CMD_DONE : Nat := 0x80000000
/-- Macro `#define ICSS_HS_CMD_CANCEL 0x10000000` -/
def ICSS_HS_CMD_CANCEL : Nat := 0x10000000

/-- Macro `#define ICSS_CMD_SPAD 0x20` -/
def ICSS_CMD_SPAD : Nat := 0x20
/-- Macro `#define ICSS_CMD_RXTX 0x10` -/
def ICSS_CMD_RXTX : Nat := 0x10
/-- Macro `#define ICSS_CMD_ADD_FDB 0x1` -/
def ICSS_CMD_ADD_FDB : Nat := 0x1
/-- Macro `#define ICSS_CMD_DEL_FDB 0x2` -/
def ICSS_CMD_DEL_FDB : Nat := 0x2
/-- Macro `#define ICSS_CMD_ERASE_FDB 0x3` -/
def ICSS_CMD_ERASE_FDB : Nat := 0x3
/-- Macro `#define ICSS_CMD_SET_RUN 0x4` -/
def ICSS_CMD_SET_RUN : Nat := 0x4
/-- Macro `#define ICSS_CMD_GET_FDB_SLOT 0x5` -/
def ICSS_CMD_GET_FDB_SLOT : Nat := 0x5
/-- Macro `#define ICSS_CMD_ENABLE_VLAN 0x5` -/
def ICSS_CMD_ENABLE_VLAN : Nat := 0x5
/-- Macro `#define ICSS_CMD_DISABLE_VLAN 0x6` -/
def ICSS_CMD_DISABLE_VLAN : Nat := 0x6
/-- Macro `#define ICSS_CMD_ADD_FILTER 0x7` -/
def ICSS_CMD_ADD_FILTER : Nat := 0x7
/-- Macro `#define ICSS_CMD_ADD_MAC 0x8` -/
def ICSS_CMD_ADD_MAC : Nat := 0x8

/-- The names of the `ICSS_CMD_*` macros ("Firmware commands"), in the order of the header. -/
inductive IcssCmdName
  | SPAD | RXTX | ADD_FDB | DEL_FDB | ERASE_FDB | SET_RUN
  | GET_FDB_SLOT | ENABLE_VLAN | DISABLE_VLAN | ADD_FILTER | ADD_MAC
  deriving DecidableEq, Repr

/-- The numeric code the header gives to each command name. -/
def IcssCmdName.code : IcssCmdName → Nat
  | .SPAD => ICSS_CMD_SPAD
  | .RXTX => ICSS_CMD_RXTX
  | .ADD_FDB => ICSS_CMD_ADD_FDB
  | .DEL_FDB => ICSS_CMD_DEL_FDB
  | .ERASE_FDB => ICSS_CMD_ERASE_FDB
  | .SET_RUN => ICSS_CMD_SET_RUN
  | .GET_FDB_SLOT => ICSS_CMD_GET_FDB_SLOT
  | .ENABLE_VLAN => ICSS_CMD_ENABLE_VLAN
  | .DISABLE_VLAN => ICSS_CMD_DISABLE_VLAN
  | .ADD_FILTER => ICSS_CMD_ADD_FILTER
  | .ADD_MAC => ICSS_CMD_ADD_MAC

/-! ## `enum prueth_port`, `enum prueth_mac`

A C enumerator without an initialiser is the previous enumerator plus one. -/

/-- Enumerator `PRUETH_PORT_HOST = 0` (host side port) -/
def PRUETH_PORT_HOST : Int := 0
/-- Enumerator `PRUETH_PORT_MII0` (physical port RG/SG MII 0) -/
def PRUETH_PORT_MII0 : Int := PRUETH_PORT_HOST + 1
/-- Enumerator `PRUETH_PORT_MII1` (physical port RG/SG MII 1) -/
def PRUETH_PORT_MII1 : Int := PRUETH_PORT_MII0 + 1

/-- Enumerator `PRUETH_MAC0 = 0` -/
def PRUETH_MAC0 : Int := 0
/-- Enumerator `PRUETH_MAC1` -/
def PRUETH_MAC1 : Int := PRUETH_MAC0 + 1
/-- Enumerator `PRUETH_NUM_MACS` -/
def PRUETH_NUM_MACS : Int := PRUETH_MAC1 + 1

/-! ## `enum prueth_swdata_type`, `union prueth_data` -/

/-- Enumerator `PRUETH_SWDATA_INVALID = 0` -/
def PRUETH_SWDATA_INVALID : Nat := 0
/-- Enumerator `PRUETH_SWDATA_SKB` -/
def PRUETH_SWDATA_SKB : Nat := PRUETH_SWDATA_INVALID + 1
/-- Enumerator `PRUETH_SWDATA_PAGE` -/
def PRUETH_SWDATA_PAGE : Nat := PRUETH_SWDATA_SKB + 1
/-- Enumerator `PRUETH_SWDATA_CMD` -/
def PRUETH_SWDATA_CMD : Nat := PRUETH_SWDATA_PAGE + 1
/-- Enumerator `PRUETH_SWDATA_XDPF` -/
def PRUETH_SWDATA_XDPF : Nat := PRUETH_SWDATA_CMD + 1

/-- All enumerators of `enum prueth_swdata_type`, in declaration order. -/
def prueth_swdata_type : List Nat :=
  [PRUETH_SWDATA_INVALID, PRUETH_SWDATA_SKB, PRUETH_SWDATA_PAGE, PRUETH_SWDATA_CMD,
   PRUETH_SWDATA_XDPF]

/-- The valid tags: every enumerator of `enum prueth_swdata_type` other than
`PRUETH_SWDATA_INVALID`. -/
def validSwdataTypes : List Nat :=
  prueth_swdata_type.filter (fun t => t != PRUETH_SWDATA_INVALID)

/-- The members of `union prueth_data`, in declaration order:
`skb`, `page`, `cmd`, `xdpf`. -/
inductive prueth_data
  | skb | page | cmd | xdpf
  deriving DecidableEq, Repr

/-- All members of `union prueth_data`. -/
def prueth_data.members : List prueth_data := [.skb, .page, .cmd, .xdpf]

/-- The `PRUETH_SWDATA_*` tag that names a member of `union prueth_data`. -/
def prueth_data.tag : prueth_data → Nat
  | .skb => PRUETH_SWDATA_SKB
  | .page => PRUETH_SWDATA_PAGE
  | .cmd => PRUETH_SWDATA_CMD
  | .xdpf => PRUETH_SWDATA_XDPF

/-! ## XDP state bits -/

/-- Modelled from the spec: the kernel macro `BIT(nr)` (`linux/bits.h`, not part of this
header) is the single-bit mask `1UL << nr`; the outcomes are "encoded as a bitmask". For
`nr` below the width of `unsigned long` the shift does not truncate. -/
def BIT (nr : Nat) : Nat := 1 <<< nr

/-- Macro `#define ICSSG_XDP_PASS 0` -/
def ICSSG_XDP_PASS : Nat := 0
/-- Macro `#define ICSSG_XDP_CONSUMED BIT(0)` -/
def ICSSG_XDP_CONSUMED : Nat := BIT 0
/-- Macro `#define ICSSG_XDP_TX BIT(1)` -/
def ICSSG_XDP_TX : Nat := BIT 1
/-- Macro `#define ICSSG_XDP_REDIR BIT(2)` -/
def ICSSG_XDP_REDIR : Nat := BIT 2

/-- The three outcome flags that the fast path can raise. -/
inductive XdpFlag
  | CONSUMED | TX | REDIR
  deriving DecidableEq, Repr

/-- The mask of an outcome flag. -/
def XdpFlag.mask : XdpFlag → Nat
  | .CONSUMED => ICSSG_XDP_CONSUMED
  | .TX => ICSSG_XDP_TX
  | .REDIR => ICSSG_XDP_REDIR

/-- The bitwise OR of a collection of outcome flags, starting from `ICSSG_XDP_PASS`. -/
def xdpOr : List XdpFlag → Nat
  | [] => ICSSG_XDP_PASS
  | f :: fs => f.mask ||| xdpOr fs

/-! ## `prueth_emac_slice` -/

/-- The inline helper `prueth_emac_slice`: the PRUSS slice number of a port.
`EINVAL` is the errno constant of the kernel headers (not part of this header);
`port_id` is the field `emac->port_id`.
```
switch (emac->port_id) {
case PRUETH_PORT_MII0: return ICSS_SLICE0;
case PRUETH_PORT_MII1: return ICSS_SLICE1;
default:               return -EINVAL;
}
``` -/
def prueth_emac_slice (EINVAL : Int) (port_id : Int) : Int :=
  if port_id = PRUETH_PORT_MII0 then ICSS_SLICE0
  else if port_id = PRUETH_PORT_MII1 then ICSS_SLICE1
  else -EINVAL

/-! ## Buffer headroom -/

/-- The value an integer has once stored in the C type `int` (32 bits, two's complement):
an out-of-range result of an `int` operation wraps around modulo `2 ^ 32` into
`-2147483648 .. 2147483647`. -/
def wrapInt (z : Int) : Int := (z + 2147483648) % 4294967296 - 2147483648

/-- Modelled from the spec: the kernel macro `ALIGN(x, a)` (`linux/align.h`, not part of
this header), which rounds `x` "up to pointer alignment". It expands to
`(x + ((typeof(x))(a) - 1)) & ~((typeof(x))(a) - 1)`; in this header `x` is
`PRUETH_HEADROOM_NA`, an `int` expression, so `a` is converted to `int` and the
subtraction and the addition are `int` operations that wrap; `~` and `&` act on the
two's-complement bits. -/
def ALIGN (x a : Int) : Int :=
  Int.land (wrapInt (x + wrapInt (wrapInt a - 1))) (~~~(wrapInt (wrapInt a - 1)))

/-- Macro `#define PRUETH_HEADROOM_NA (max(XDP_PACKET_HEADROOM, NET_SKB_PAD) + NET_IP_ALIGN)`;
the three kernel constants are not defined in this header and are parameters. They are
`int` constants, so the addition is an `int` addition that wraps. -/
def PRUETH_HEADROOM_NA (XDP_PACKET_HEADROOM NET_SKB_PAD NET_IP_ALIGN : Nat) : Int :=
  wrapInt (max (XDP_PACKET_HEADROOM : Int) (NET_SKB_PAD : Int) + (NET_IP_ALIGN : Int))

/-- Macro `#define PRUETH_HEADROOM ALIGN(PRUETH_HEADROOM_NA, sizeof(long))`; `sizeof_long` is the
value of `sizeof(long)` on the target. -/
def PRUETH_HEADROOM (XDP_PACKET_HEADROOM NET_SKB_PAD NET_IP_ALIGN sizeof_long : Nat) : Int :=
  ALIGN (PRUETH_HEADROOM_NA XDP_PACKET_HEADROOM NET_SKB_PAD NET_IP_ALIGN) (sizeof_long : Int)

/-- The largest value of the C type `int`. -/
def INT_MAX : Nat := 2147483647

/-! ## `struct emac_tx_ts_response` -/

/-- One member declaration of a C structure: its name, the size in bytes of its scalar
element type (which is also the alignment of that type) and the number of elements
(`1` for a scalar member, the array length for an array member). -/
structure Member where
  name : String
  elemSize : Nat
  count : Nat
  deriving DecidableEq, Repr

/-- The size in bytes of `u32`. -/
def sizeof_u32 : Nat := 4

/-- The declaration
```
struct emac_tx_ts_response {
	u32 reserved[2];
	u32 cookie;
	u32 lo_ts;
	u32 hi_ts;
};
``` -/
def emac_tx_ts_response : List Member :=
  [ ⟨"reserved", sizeof_u32, 2⟩,
    ⟨"cookie", sizeof_u32, 1⟩,
    ⟨"lo_ts", sizeof_u32, 1⟩,
    ⟨"hi_ts", sizeof_u32, 1⟩ ]

/-- Round `off` up to the next multiple of `al`. -/
def roundUp (off al : Nat) : Nat := (off + (al - 1)) / al * al

/-- The byte offset of every member when the members are laid out in declaration order
from offset `off`, each at the next offset that is a multiple of its alignment. -/
def memberOffsets : Nat → List Member → List (String × Nat)
  | _, [] => []
  | off, m :: ms =>
    (m.name, roundUp off m.elemSize) ::
      memberOffsets (roundUp off m.elemSize + m.elemSize * m.count) ms

/-- The offset just past the last member. -/
def endOffset : Nat → List Member → Nat
  | off, [] => off
  | off, m :: ms => endOffset (roundUp off m.elemSize + m.elemSize * m.count) ms

/-- The alignment of a structure: the largest alignment of a member. -/
def structAlign (ms : List Member) : Nat := (ms.map Member.elemSize).foldr max 1

/-- The macro `offsetof(struct, member)`. -/
def offsetOf (ms : List Member) (name : String) : Option Nat :=
  (memberOffsets 0 ms).lookup name

/-- The operator `sizeof(struct)`: the end offset rounded up to the structure's alignment. -/
def sizeofStruct (ms : List Member) : Nat := roundUp (endOffset 0 ms) (structAlign ms)

/-- The scalar elements of a structure in memory order, each with its size in bytes:
an array member contributes one entry per element. -/
def elements (ms : List Member) : List (String × Nat × Nat) :=
  ms.flatMap (fun m => (List.range m.count).map (fun i => (m.name, i, m.elemSize)))

/-! ## Command sequence counter -/

/-- The width in bits of `u8`, the type of the field `cmd_seq` of `struct prueth_emac`. -/
def U8_BITS : Nat := 8

/-- Modelled from the spec: the increment of the per-port sequence counter ("incremented
and wrapped on every request"); the statement `emac->cmd_seq++` is in the command code of
the driver, not in this header. The field is declared `u8 cmd_seq;`, so the stored result
is reduced modulo `2 ^ 8`. -/
def cmd_seq_next (s : Nat) : Nat := (s + 1) % 2 ^ U8_BITS

/-- The counter after `k` requests. -/
def cmd_seq_after : Nat → Nat → Nat
  | 0, s => s
  | k + 1, s => cmd_seq_after k (cmd_seq_next s)

/-! ## Transmit-timestamp correlator -/

/-- Macro `#define PRUETH_MAX_TX_TS_REQUESTS 50` (max simultaneous TX_TS requests) -/
def PRUETH_MAX_TX_TS_REQUESTS : Nat := 50

/-- The failure of a reservation. -/
inductive TxTsError
  | CAPACITY_EXCEEDED
  deriving DecidableEq, Repr

/-- The timestamping fields of `struct prueth_emac`:
`struct sk_buff *tx_ts_skb[PRUETH_MAX_TX_TS_REQUESTS]` (a null pointer is `none`, a held
unit is `some` of its identity) and `atomic_t tx_ts_pending`. The cookie is the index into
`tx_ts_skb`. -/
structure TxTs where
  tx_ts_skb : List (Option Nat)
  tx_ts_pending : Nat
  deriving DecidableEq, Repr

/-- The empty table: all `PRUETH_MAX_TX_TS_REQUESTS` slots free, nothing pending. -/
def TxTs.empty : TxTs := ⟨List.replicate PRUETH_MAX_TX_TS_REQUESTS none, 0⟩

/-- The index of the first free slot, if any. -/
def firstFree : List (Option Nat) → Option Nat
  | [] => none
  | none :: _ => some 0
  | some _ :: rest => (firstFree rest).map (· + 1)

/-- Modelled from the spec: `reserve()` of the Transmit-Timestamp Correlator, whose code is
in the driver's transmit path and not in this header. It "finds a free slot, stores the
unit, returns the cookie to embed in the outgoing descriptor, and increments a pending
counter; fails with CAPACITY_EXCEEDED if no free slot exists". -/
def reserve (t : TxTs) (skb : Nat) : Except TxTsError (Nat × TxTs) :=
  match firstFree t.tx_ts_skb with
  | none => .error .CAPACITY_EXCEEDED
  | some cookie =>
    .ok (cookie, ⟨t.tx_ts_skb.set cookie (some skb), t.tx_ts_pending + 1⟩)

/-- Reserve a slot for each unit of a list in turn, with no resolution in between; the
result is the list of cookies handed out and the final table, or the first failure. -/
def reserveAll : TxTs → List Nat → Except TxTsError (List Nat × TxTs)
  | t, [] => .ok ([], t)
  | t, skb :: skbs =>
    match reserve t skb with
    | .error e => .error e
    | .ok (cookie, t1) =>
      match reserveAll t1 skbs with
      | .error e => .error e
      | .ok (cookies, t2) => .ok (cookie :: cookies, t2)


/-! ## Encodings -/

/-- C2: `ICSSG_XDP_PASS` is 0 and `ICSSG_XDP_CONSUMED`, `ICSSG_XDP_TX`, `ICSSG_XDP_REDIR`
are three distinct single-bit values; for every collection of flags drawn from
CONSUMED, TX, REDIR the bitwise OR equals PASS exactly when the collection is empty, and
masking the OR with a flag returns that flag when it is in the collection and 0 when it is
not. -/
theorem xdp_outcome_encoding :
    ICSSG_XDP_PASS = 0 ∧
    ICSSG_XDP_CONSUMED = 2 ^ 0 ∧ ICSSG_XDP_TX = 2 ^ 1 ∧ ICSSG_XDP_REDIR = 2 ^ 2 ∧
    ICSSG_XDP_CONSUMED ≠ ICSSG_XDP_TX ∧ ICSSG_XDP_CONSUMED ≠ ICSSG_XDP_REDIR ∧
    ICSSG_XDP_TX ≠ ICSSG_XDP_REDIR ∧
    (∀ s : List XdpFlag, xdpOr s = ICSSG_XDP_PASS ↔ s = []) ∧
    (∀ (s : List XdpFlag) (f : XdpFlag),
      xdpOr s &&& f.mask = if f ∈ s then f.mask else 0) := by
  have hmask : ∀ (s : List XdpFlag) (f : XdpFlag),
      xdpOr s &&& f.mask = if f ∈ s then f.mask else 0 := by
    intro s f
    induction s with
    | nil => simp [xdpOr, ICSSG_XDP_PASS]
    | cons g gs ih =>
      rw [xdpOr, Nat.and_distrib_right, ih]
      by_cases hf : f ∈ gs
      · cases f <;> cases g <;> simp [hf] <;> decide
      · cases f <;> cases g <;> simp [hf] <;> decide
  refine ⟨rfl, by decide, by decide, by decide, by decide, by decide, by decide, ?_, hmask⟩
  intro s
  constructor
  · intro h
    cases s with
    | nil => rfl
    | cons g gs =>
      exfalso
      have h1 := hmask (g :: gs) g
      rw [h] at h1
      cases g <;> simp [ICSSG_XDP_PASS] at h1 <;> revert h1 <;> decide
  · rintro rfl
    rfl

/-- C3: `ICSS_HS_CMD_BUSY`, `ICSS_HS_CMD_DONE` and `ICSS_HS_CMD_CANCEL` are single-bit
values below `2 ^ 32`, non-zero, pairwise distinct and with pairwise disjoint bits; a status
word equal to one of them is different from, and shares no bit with, the other two. -/
theorem hs_cmd_status_encoding :
    (ICSS_HS_CMD_BUSY = 2 ^ 30 ∧ ICSS_HS_CMD_DONE = 2 ^ 31 ∧ ICSS_HS_CMD_CANCEL = 2 ^ 28) ∧
    (ICSS_HS_CMD_BUSY < 2 ^ 32 ∧ ICSS_HS_CMD_DONE < 2 ^ 32 ∧ ICSS_HS_CMD_CANCEL < 2 ^ 32) ∧
    (ICSS_HS_CMD_BUSY ≠ 0 ∧ ICSS_HS_CMD_DONE ≠ 0 ∧ ICSS_HS_CMD_CANCEL ≠ 0) ∧
    (ICSS_HS_CMD_BUSY ≠ ICSS_HS_CMD_DONE ∧ ICSS_HS_CMD_BUSY ≠ ICSS_HS_CMD_CANCEL ∧
      ICSS_HS_CMD_DONE ≠ ICSS_HS_CMD_CANCEL) ∧
    (ICSS_HS_CMD_BUSY &&& ICSS_HS_CMD_DONE = 0 ∧ ICSS_HS_CMD_BUSY &&& ICSS_HS_CMD_CANCEL = 0 ∧
      ICSS_HS_CMD_DONE &&& ICSS_HS_CMD_CANCEL = 0) ∧
    (∀ w : Nat,
      (w = ICSS_HS_CMD_BUSY →
        w ≠ ICSS_HS_CMD_DONE ∧ w ≠ ICSS_HS_CMD_CANCEL ∧
        w &&& ICSS_HS_CMD_DONE = 0 ∧ w &&& ICSS_HS_CMD_CANCEL = 0) ∧
      (w = ICSS_HS_CMD_DONE →
        w ≠ ICSS_HS_CMD_BUSY ∧ w ≠ ICSS_HS_CMD_CANCEL ∧
        w &&& ICSS_HS_CMD_BUSY = 0 ∧ w &&& ICSS_HS_CMD_CANCEL = 0) ∧
      (w = ICSS_HS_CMD_CANCEL →
        w ≠ ICSS_HS_CMD_BUSY ∧ w ≠ ICSS_HS_CMD_DONE ∧
        w &&& ICSS_HS_CMD_BUSY = 0 ∧ w &&& ICSS_HS_CMD_DONE = 0)) := by
  refine ⟨by decide, by decide, by decide, by decide, by decide, ?_⟩
  intro w
  refine ⟨?_, ?_, ?_⟩ <;> rintro rfl <;> decide

/-- Witness for C3: the status word `ICSS_HS_CMD_BUSY` is neither DONE nor CANCEL and
shares no bit with them. -/
theorem hs_cmd_status_encoding_witness :
    ICSS_HS_CMD_BUSY ≠ ICSS_HS_CMD_DONE ∧ ICSS_HS_CMD_BUSY ≠ ICSS_HS_CMD_CANCEL ∧
    ICSS_HS_CMD_BUSY &&& ICSS_HS_CMD_DONE = 0 ∧ ICSS_HS_CMD_BUSY &&& ICSS_HS_CMD_CANCEL = 0 :=
  (hs_cmd_status_encoding.2.2.2.2.2 ICSS_HS_CMD_BUSY).1 rfl

/-- C6: `ICSS_CMD_GET_FDB_SLOT` and `ICSS_CMD_ENABLE_VLAN` both have the value `0x5`, so the
map from command name to numeric code is not injective; any two distinct command names with
the same code are exactly this pair. -/
theorem cmd_codes_namespaced :
    IcssCmdName.GET_FDB_SLOT.code = 0x5 ∧ IcssCmdName.ENABLE_VLAN.code = 0x5 ∧
    ¬ Function.Injective IcssCmdName.code ∧
    (∀ c d : IcssCmdName, c ≠ d → c.code = d.code →
      (c = .GET_FDB_SLOT ∧ d = .ENABLE_VLAN) ∨ (c = .ENABLE_VLAN ∧ d = .GET_FDB_SLOT)) := by
  refine ⟨rfl, rfl, ?_, ?_⟩
  · intro hinj
    have h : IcssCmdName.GET_FDB_SLOT = IcssCmdName.ENABLE_VLAN := hinj rfl
    cases h
  · intro c d
    cases c <;> cases d <;> decide

/-- Witness for C6: the distinct names GET_FDB_SLOT and ENABLE_VLAN share a code, and the
theorem identifies them as the colliding pair. -/
theorem cmd_codes_namespaced_witness :
    IcssCmdName.GET_FDB_SLOT ≠ IcssCmdName.ENABLE_VLAN ∧
    IcssCmdName.GET_FDB_SLOT.code = IcssCmdName.ENABLE_VLAN.code ∧
    ((IcssCmdName.GET_FDB_SLOT = .GET_FDB_SLOT ∧ IcssCmdName.ENABLE_VLAN = .ENABLE_VLAN) ∨
      (IcssCmdName.GET_FDB_SLOT = .ENABLE_VLAN ∧ IcssCmdName.ENABLE_VLAN = .GET_FDB_SLOT)) :=
  ⟨by decide, rfl,
    cmd_codes_namespaced.2.2.2 IcssCmdName.GET_FDB_SLOT IcssCmdName.ENABLE_VLAN
      (by decide) rfl⟩

/-- C7: `struct emac_tx_ts_response` is five consecutive 32-bit words in the order
`reserved[0]`, `reserved[1]`, `cookie`, `lo_ts`, `hi_ts`; `cookie` is at byte offset 8
(word 2), `lo_ts` at 12 (word 3), `hi_ts` at 16 (word 4), and the size is 20 bytes. -/
theorem emac_tx_ts_response_layout :
    elements emac_tx_ts_response =
      [("reserved", 0, 4), ("reserved", 1, 4), ("cookie", 0, 4), ("lo_ts", 0, 4),
       ("hi_ts", 0, 4)] ∧
    offsetOf emac_tx_ts_response "reserved" = some 0 ∧
    offsetOf emac_tx_ts_response "cookie" = some (2 * 4) ∧
    offsetOf emac_tx_ts_response "lo_ts" = some (3 * 4) ∧
    offsetOf emac_tx_ts_response "hi_ts" = some (4 * 4) ∧
    sizeofStruct emac_tx_ts_response = 5 * 4 ∧
    sizeofStruct emac_tx_ts_response = 20 := by
  refine ⟨by decide, by decide, by decide, by decide, by decide, by decide, by decide⟩

/-- C8: `enum prueth_swdata_type` has exactly four valid tags (SKB, PAGE, CMD, XDPF),
pairwise distinct; the map from the four members of `union prueth_data` to their tags is
one-to-one and onto the valid tags; `PRUETH_SWDATA_INVALID` is 0 and is not a valid tag. -/
theorem swdata_tagging :
    validSwdataTypes =
      [PRUETH_SWDATA_SKB, PRUETH_SWDATA_PAGE, PRUETH_SWDATA_CMD, PRUETH_SWDATA_XDPF] ∧
    validSwdataTypes.length = 4 ∧
    validSwdataTypes.Nodup ∧
    prueth_data.members.length = 4 ∧
    prueth_data.members.Nodup ∧
    (∀ m : prueth_data, m ∈ prueth_data.members) ∧
    Function.Injective prueth_data.tag ∧
    (∀ t : Nat, t ∈ validSwdataTypes ↔ ∃ m : prueth_data, m.tag = t) ∧
    prueth_data.members.map prueth_data.tag = validSwdataTypes ∧
    PRUETH_SWDATA_INVALID = 0 ∧
    PRUETH_SWDATA_INVALID ∉ validSwdataTypes ∧
    (∀ m : prueth_data, m.tag ≠ PRUETH_SWDATA_INVALID) := by
  refine ⟨by decide, by decide, by decide, by decide, by decide, ?_, ?_, ?_, by decide, rfl,
    by decide, ?_⟩
  · intro m; cases m <;> decide
  · intro a b; cases a <;> cases b <;> decide
  · intro t
    constructor
    · intro h
      have h4 : validSwdataTypes = [1, 2, 3, 4] := by decide
      rw [h4] at h
      simp only [List.mem_cons, List.mem_singleton, List.not_mem_nil, or_false] at h
      rcases h with rfl | rfl | rfl | rfl
      · exact ⟨.skb, rfl⟩
      · exact ⟨.page, rfl⟩
      · exact ⟨.cmd, rfl⟩
      · exact ⟨.xdpf, rfl⟩
    · rintro ⟨m, rfl⟩
      cases m <;> decide
  · intro m; cases m <;> decide

/-! ## `prueth_emac_slice` -/

/-- C10: `prueth_emac_slice` returns `ICSS_SLICE0` (0) for `PRUETH_PORT_MII0`, `ICSS_SLICE1`
(1) for `PRUETH_PORT_MII1` and `-EINVAL` for every other `port_id`, `PRUETH_PORT_HOST`
included; with `EINVAL` positive the result is non-negative exactly for the two MII ports,
and a non-negative result equals `port_id - 1` and is a valid index below
`PRUETH_NUM_MACS`. -/
theorem prueth_emac_slice_spec (EINVAL port_id : Int) (hE : 0 < EINVAL) :
    (prueth_emac_slice EINVAL PRUETH_PORT_MII0 = ICSS_SLICE0 ∧ ICSS_SLICE0 = 0) ∧
    (prueth_emac_slice EINVAL PRUETH_PORT_MII1 = ICSS_SLICE1 ∧ ICSS_SLICE1 = 1) ∧
    prueth_emac_slice EINVAL PRUETH_PORT_HOST = -EINVAL ∧
    (port_id ≠ PRUETH_PORT_MII0 → port_id ≠ PRUETH_PORT_MII1 →
      prueth_emac_slice EINVAL port_id = -EINVAL) ∧
    (0 ≤ prueth_emac_slice EINVAL port_id ↔
      port_id = PRUETH_PORT_MII0 ∨ port_id = PRUETH_PORT_MII1) ∧
    (0 ≤ prueth_emac_slice EINVAL port_id →
      prueth_emac_slice EINVAL port_id = port_id - 1 ∧
      prueth_emac_slice EINVAL port_id < PRUETH_NUM_MACS) := by
  have h0 : PRUETH_PORT_MII0 = 1 := by decide
  have h1 : PRUETH_PORT_MII1 = 2 := by decide
  have hh : PRUETH_PORT_HOST = 0 := by decide
  have hn : PRUETH_NUM_MACS = 2 := by decide
  have s0 : ICSS_SLICE0 = 0 := rfl
  have s1 : ICSS_SLICE1 = 1 := rfl
  rw [h0, h1, hh, hn, s0, s1]
  unfold prueth_emac_slice
  rw [h0, h1, s0, s1]
  refine ⟨⟨by simp, rfl⟩, ⟨by simp, rfl⟩, by simp, ?_, ?_, ?_⟩
  · intro ha hb
    simp [ha, hb]
  · by_cases ha : port_id = 1
    · simp [ha]
    · by_cases hb : port_id = 2
      · simp [hb]
      · simp only [ha, hb, if_false, or_self, iff_false]
        omega
  · by_cases ha : port_id = 1
    · simp [ha]
    · by_cases hb : port_id = 2
      · simp [hb]
      · simp only [ha, hb, if_false]
        intro h
        omega

/-- Witness for C10 at `EINVAL = 22` and `port_id = PRUETH_PORT_MII1 = 2`. -/
theorem prueth_emac_slice_spec_witness :
    (0 : Int) < 22 ∧ prueth_emac_slice 22 2 = 2 - 1 ∧
    prueth_emac_slice 22 2 < PRUETH_NUM_MACS :=
  ⟨by decide, (prueth_emac_slice_spec 22 2 (by decide)).2.2.2.2.2 (by decide)⟩

/-! ## Command sequence counter -/

theorem cmd_seq_next_lt (s : Nat) : cmd_seq_next s < 256 := by
  unfold cmd_seq_next U8_BITS
  omega

theorem cmd_seq_after_eq (k s : Nat) (hs : s < 256) :
    cmd_seq_after k s = (s + k) % 256 := by
  induction k generalizing s with
  | zero => simp [cmd_seq_after]; omega
  | succ k ih =>
    rw [cmd_seq_after, ih _ (cmd_seq_next_lt s)]
    unfold cmd_seq_next U8_BITS
    omega

/-- C9: the sequence counter `cmd_seq` is an 8-bit unsigned value: the increment of `s` is
`(s + 1) mod 256`, stays within 0..255, takes 255 to 0, and 256 successive increments
return the counter to its starting value while no smaller positive number of increments
does. -/
theorem cmd_seq_wraps (s : Nat) (hs : s < 256) :
    cmd_seq_next s = (s + 1) % 256 ∧
    cmd_seq_next s < 256 ∧
    (s < 255 → cmd_seq_next s = s + 1) ∧
    cmd_seq_next 255 = 0 ∧
    cmd_seq_after 256 s = s ∧
    (∀ k : Nat, 0 < k → k < 256 → cmd_seq_after k s ≠ s) := by
  refine ⟨rfl, cmd_seq_next_lt s, ?_, by decide, ?_, ?_⟩
  · intro h
    unfold cmd_seq_next U8_BITS
    omega
  · rw [cmd_seq_after_eq 256 s hs]
    omega
  · intro k hk0 hk
    rw [cmd_seq_after_eq k s hs]
    omega

/-- Witness for C9 at the counter value 255. -/
theorem cmd_seq_wraps_witness :
    (255 : Nat) < 256 ∧ cmd_seq_next 255 = (255 + 1) % 256 ∧ cmd_seq_after 256 255 = 255 :=
  ⟨by decide, (cmd_seq_wraps 255 (by decide)).1, (cmd_seq_wraps 255 (by decide)).2.2.2.2.1⟩

/-! ## Transmit-timestamp correlator -/

theorem firstFree_occupied_append (pre : List Nat) (rest : List (Option Nat)) :
    firstFree (pre.map some ++ rest) = (firstFree rest).map (· + pre.length) := by
  induction pre with
  | nil => simp
  | cons a pre ih =>
    show firstFree (some a :: (pre.map some ++ rest)) = _
    rw [firstFree, ih, Option.map_map]
    cases firstFree rest with
    | none => rfl
    | some x => rfl

theorem firstFree_free (pre : List Nat) (m : Nat) :
    firstFree (pre.map some ++ List.replicate (m + 1) none) = some pre.length := by
  rw [firstFree_occupied_append, List.replicate_succ, firstFree]
  simp

theorem firstFree_full (pre : List Nat) :
    firstFree (pre.map some ++ List.replicate 0 none) = none := by
  rw [firstFree_occupied_append]
  simp [firstFree]

theorem set_first_free (pre : List Nat) (m skb : Nat) :
    (pre.map some ++ List.replicate (m + 1) none).set pre.length (some skb) =
      (pre ++ [skb]).map some ++ List.replicate m none := by
  induction pre with
  | nil => simp [List.replicate_succ]
  | cons a pre ih => simpa using ih

theorem reserve_free (pre : List Nat) (m p skb : Nat) :
    reserve ⟨pre.map some ++ List.replicate (m + 1) none, p⟩ skb =
      .ok (pre.length, ⟨(pre ++ [skb]).map some ++ List.replicate m none, p + 1⟩) := by
  simp only [reserve, firstFree_free, set_first_free]

theorem reserve_full (pre : List Nat) (p skb : Nat) :
    reserve ⟨pre.map some ++ List.replicate 0 none, p⟩ skb = .error .CAPACITY_EXCEEDED := by
  simp only [reserve, firstFree_full]

theorem reserveAll_free (skbs pre : List Nat) (m p : Nat) :
    reserveAll ⟨pre.map some ++ List.replicate (skbs.length + m) none, p⟩ skbs =
      .ok (List.range' pre.length skbs.length,
        ⟨(pre ++ skbs).map some ++ List.replicate m none, p + skbs.length⟩) := by
  induction skbs generalizing pre p with
  | nil => simp [reserveAll]
  | cons a skbs ih =>
    have hlen : (a :: skbs).length + m = (skbs.length + m) + 1 := by
      simp only [List.length_cons]; omega
    rw [hlen, reserveAll, reserve_free]
    have h := ih (pre ++ [a]) (p + 1)
    dsimp only
    rw [h]
    simp only [List.length_append, List.length_singleton, List.length_cons, List.range',
      List.append_assoc, List.singleton_append, Nat.add_assoc, Nat.add_comm 1,
      List.length_nil, Nat.zero_add]

theorem reserveAll_snoc_error (skbs : List Nat) (skb : Nat) (t t1 : TxTs) (cookies : List Nat)
    (e : TxTsError) (h1 : reserveAll t skbs = .ok (cookies, t1))
    (h2 : reserve t1 skb = .error e) :
    reserveAll t (skbs ++ [skb]) = .error e := by
  induction skbs generalizing t cookies with
  | nil =>
    simp only [reserveAll, Except.ok.injEq, Prod.mk.injEq] at h1
    obtain ⟨-, rfl⟩ := h1
    simp only [List.nil_append, reserveAll, h2]
  | cons a skbs ih =>
    rw [List.cons_append, reserveAll]
    rw [reserveAll] at h1
    cases hr : reserve t a with
    | error e1 => simp [hr] at h1
    | ok r =>
      obtain ⟨c, ta⟩ := r
      rw [hr] at h1
      dsimp only at h1 ⊢
      cases hs : reserveAll ta skbs with
      | error e2 => simp [hs] at h1
      | ok r2 =>
        obtain ⟨cs, tb⟩ := r2
        rw [hs] at h1
        simp only [Except.ok.injEq, Prod.mk.injEq] at h1
        obtain ⟨-, rfl⟩ := h1
        rw [ih ta cs hs]

/-- C1: starting from the empty table of `PRUETH_MAX_TX_TS_REQUESTS = 50` slots and making
reservations with no resolution in between, any `n ≤ 50` requests all succeed and receive
the cookies `0 .. n - 1` (the slot indices); the next request succeeds with cookie `n`
while `n < 50`, and fails with `CAPACITY_EXCEEDED` when `n = 50`, i.e. on the 51st. -/
theorem tx_ts_capacity (skbs : List Nat) (skb : Nat)
    (h : skbs.length ≤ PRUETH_MAX_TX_TS_REQUESTS) :
    ∃ t : TxTs,
      reserveAll TxTs.empty skbs = .ok (List.range skbs.length, t) ∧
      t.tx_ts_pending = skbs.length ∧
      t.tx_ts_skb.length = PRUETH_MAX_TX_TS_REQUESTS ∧
      (skbs.length < PRUETH_MAX_TX_TS_REQUESTS →
        ∃ t1 : TxTs, reserve t skb = .ok (skbs.length, t1) ∧
          t1.tx_ts_pending = skbs.length + 1) ∧
      (skbs.length = PRUETH_MAX_TX_TS_REQUESTS →
        reserve t skb = .error .CAPACITY_EXCEEDED ∧
        reserveAll TxTs.empty (skbs ++ [skb]) = .error .CAPACITY_EXCEEDED) := by
  obtain ⟨m, hm⟩ : ∃ m, PRUETH_MAX_TX_TS_REQUESTS = skbs.length + m :=
    ⟨PRUETH_MAX_TX_TS_REQUESTS - skbs.length, by omega⟩
  have hE : TxTs.empty =
      ⟨([] : List Nat).map some ++ List.replicate (skbs.length + m) none, 0⟩ := by
    simp only [TxTs.empty, hm, List.map_nil, List.nil_append]
  have hall := reserveAll_free skbs [] m 0
  rw [← hE] at hall
  simp only [List.length_nil, List.nil_append, Nat.zero_add] at hall
  rw [← List.range_eq_range'] at hall
  refine ⟨_, hall, rfl, ?_, ?_, ?_⟩
  · simp only [List.length_append, List.length_map, List.length_replicate]
    omega
  · intro hlt
    obtain ⟨k, rfl⟩ : ∃ k, m = k + 1 := ⟨m - 1, by omega⟩
    exact ⟨_, reserve_free skbs k skbs.length skb, rfl⟩
  · intro heq
    obtain rfl : m = 0 := by omega
    have hfull := reserve_full skbs skbs.length skb
    exact ⟨hfull, reserveAll_snoc_error skbs skb _ _ _ _ hall hfull⟩

/-- Witness for C1: fifty units are reserved from the empty table and the fifty-first
request is refused. -/
theorem tx_ts_capacity_witness :
    (List.range 50).length ≤ PRUETH_MAX_TX_TS_REQUESTS ∧
    ∃ t : TxTs,
      reserveAll TxTs.empty (List.range 50) = .ok (List.range 50, t) ∧
      reserve t 50 = .error .CAPACITY_EXCEEDED := by
  refine ⟨by decide, ?_⟩
  obtain ⟨t, h1, -, -, -, h2⟩ := tx_ts_capacity (List.range 50) 50 (by decide)
  exact ⟨t, h1, (h2 (by decide)).1⟩

/-! ## Buffer headroom -/

theorem ldiff_two_pow_sub_one (y k : Nat) :
    Nat.ldiff y (2 ^ k - 1) = y / 2 ^ k * 2 ^ k := by
  apply Nat.eq_of_testBit_eq
  intro i
  rw [Nat.testBit_ldiff, Nat.testBit_two_pow_sub_one, ← Nat.shiftRight_eq_div_pow,
    ← Nat.shiftLeft_eq, Nat.testBit_shiftLeft, Nat.testBit_shiftRight]
  by_cases h : i < k
  · simp [h]
  · have h2 : k + (i - k) = i := by omega
    simp [h, h2]
    omega

/-- A value within the range of `int` is stored unchanged. -/
theorem wrapInt_of_natCast (n : Nat) (h : n ≤ INT_MAX) : wrapInt (n : Int) = (n : Int) := by
  unfold INT_MAX at h
  unfold wrapInt
  omega

/-- The mask `(int)a - 1` of a power of two `a` is `a - 1` as long as `a - 1` is
representable. -/
theorem wrapInt_mask (p : Nat) (hp : 0 < p) (h : p - 1 ≤ INT_MAX) :
    wrapInt (wrapInt (p : Int) - 1) = ((p - 1 : Nat) : Int) := by
  unfold INT_MAX at h
  unfold wrapInt
  omega

/-- On a natural number and a power-of-two alignment whose sum `n + (a - 1)` does not
overflow `int`, the mask expression of `ALIGN` is the arithmetic round-up. -/
theorem ALIGN_eq_roundUp (n k : Nat) (h : n + (2 ^ k - 1) ≤ INT_MAX) :
    ALIGN (n : Int) ((2 ^ k : Nat) : Int) = ((roundUp n (2 ^ k) : Nat) : Int) := by
  have hpos : 0 < 2 ^ k := Nat.two_pow_pos k
  have hmask := wrapInt_mask (2 ^ k) hpos (by omega)
  have hsum : wrapInt ((n : Int) + ((2 ^ k - 1 : Nat) : Int)) =
      ((n + (2 ^ k - 1) : Nat) : Int) := by
    rw [← wrapInt_of_natCast (n + (2 ^ k - 1)) h]
    push_cast
    rfl
  unfold ALIGN roundUp
  rw [hmask, hsum, ← ldiff_two_pow_sub_one]
  rfl

theorem roundUp_dvd (n a : Nat) : a ∣ roundUp n a :=
  Dvd.intro_left _ rfl

theorem roundUp_bounds (n a : Nat) (ha : 0 < a) :
    n ≤ roundUp n a ∧ roundUp n a < n + a := by
  have hd := Nat.div_add_mod (n + (a - 1)) a
  have hm := Nat.mod_lt (n + (a - 1)) ha
  unfold roundUp
  rw [Nat.mul_comm]
  generalize a * ((n + (a - 1)) / a) = q at hd ⊢
  omega

theorem roundUp_least (n a m : Nat) (ha : 0 < a) (hdvd : a ∣ m) (hle : n ≤ m) :
    roundUp n a ≤ m := by
  obtain ⟨c, rfl⟩ := hdvd
  unfold roundUp
  rw [Nat.mul_comm a c]
  apply Nat.mul_le_mul_right
  apply Nat.le_of_lt_succ
  rw [Nat.div_lt_iff_lt_mul ha, Nat.succ_mul]
  have : a * c = c * a := Nat.mul_comm a c
  omega

/-- Without overflow `PRUETH_HEADROOM_NA` is the exact sum. -/
theorem headroom_na_cast (x s i : Nat) (h : max x s + i ≤ INT_MAX) :
    PRUETH_HEADROOM_NA x s i = ((max x s + i : Nat) : Int) := by
  unfold PRUETH_HEADROOM_NA
  rw [← wrapInt_of_natCast (max x s + i) h]
  push_cast
  rfl

/-- Without overflow `PRUETH_HEADROOM` is the exact sum rounded up. -/
theorem headroom_cast (x s i k : Nat) (h : max x s + i + (2 ^ k - 1) ≤ INT_MAX) :
    PRUETH_HEADROOM x s i (2 ^ k) = ((roundUp (max x s + i) (2 ^ k) : Nat) : Int) := by
  unfold PRUETH_HEADROOM
  rw [headroom_na_cast x s i (by omega), ALIGN_eq_roundUp _ _ h]

/-- C4 (as amended): for all natural values of `XDP_PACKET_HEADROOM`, `NET_SKB_PAD` and
`NET_IP_ALIGN` and every power-of-two `sizeof(long) = a` for which
`max(XDP_PACKET_HEADROOM, NET_SKB_PAD) + NET_IP_ALIGN + (a - 1)` does not exceed `INT_MAX`,
`PRUETH_HEADROOM` is at least `XDP_PACKET_HEADROOM + NET_IP_ALIGN` and at least
`NET_SKB_PAD + NET_IP_ALIGN`. -/
theorem headroom_sufficient (XDP_PACKET_HEADROOM NET_SKB_PAD NET_IP_ALIGN k : Nat)
    (h : max XDP_PACKET_HEADROOM NET_SKB_PAD + NET_IP_ALIGN + (2 ^ k - 1) ≤ INT_MAX) :
    (XDP_PACKET_HEADROOM : Int) + (NET_IP_ALIGN : Int) ≤
      PRUETH_HEADROOM XDP_PACKET_HEADROOM NET_SKB_PAD NET_IP_ALIGN (2 ^ k) ∧
    (NET_SKB_PAD : Int) + (NET_IP_ALIGN : Int) ≤
      PRUETH_HEADROOM XDP_PACKET_HEADROOM NET_SKB_PAD NET_IP_ALIGN (2 ^ k) := by
  rw [headroom_cast _ _ _ _ h]
  have hb := (roundUp_bounds (max XDP_PACKET_HEADROOM NET_SKB_PAD + NET_IP_ALIGN) (2 ^ k)
    (Nat.two_pow_pos k)).1
  have h1 : XDP_PACKET_HEADROOM ≤ max XDP_PACKET_HEADROOM NET_SKB_PAD := le_max_left _ _
  have h2 : NET_SKB_PAD ≤ max XDP_PACKET_HEADROOM NET_SKB_PAD := le_max_right _ _
  constructor <;> omega

/-- Witness for C4: `XDP_PACKET_HEADROOM = 256`, `NET_SKB_PAD = 64`, `NET_IP_ALIGN = 2` and
`sizeof(long) = 8` do not overflow, and the headroom covers `258` and `66`. -/
theorem headroom_sufficient_witness :
    max 256 64 + 2 + (2 ^ 3 - 1) ≤ INT_MAX ∧
    ((256 : Nat) : Int) + ((2 : Nat) : Int) ≤ PRUETH_HEADROOM 256 64 2 (2 ^ 3) ∧
    ((64 : Nat) : Int) + ((2 : Nat) : Int) ≤ PRUETH_HEADROOM 256 64 2 (2 ^ 3) :=
  ⟨by decide, headroom_sufficient 256 64 2 3 (by decide)⟩

/-- Counterexample to C4 as stated: with `XDP_PACKET_HEADROOM = 2147483647`,
`NET_SKB_PAD = 64`, `NET_IP_ALIGN = 0` and `sizeof(long) = 8` the `int` addition inside
`ALIGN` wraps, `PRUETH_HEADROOM` is `-2147483648`, and it is below
`XDP_PACKET_HEADROOM + NET_IP_ALIGN`. -/
theorem headroom_sufficient_counterexample :
    PRUETH_HEADROOM 2147483647 64 0 (2 ^ 3) = -2147483648 ∧
    ¬ (((2147483647 : Nat) : Int) + ((0 : Nat) : Int) ≤
        PRUETH_HEADROOM 2147483647 64 0 (2 ^ 3)) := by
  constructor <;> decide

/-- C5 (as amended): for every unaligned headroom value `n = PRUETH_HEADROOM_NA` and every
power-of-two word size `a = sizeof(long)` for which
`max(XDP_PACKET_HEADROOM, NET_SKB_PAD) + NET_IP_ALIGN + (a - 1)` does not exceed `INT_MAX`,
`PRUETH_HEADROOM = ALIGN(n, a)` is a multiple of `a`, is not less than `n`, is below
`n + a`, is at most every multiple of `a` that is not less than `n`, and equals `n` when `n`
is already a multiple of `a`. -/
theorem headroom_rounding (XDP_PACKET_HEADROOM NET_SKB_PAD NET_IP_ALIGN k : Nat)
    (h : max XDP_PACKET_HEADROOM NET_SKB_PAD + NET_IP_ALIGN + (2 ^ k - 1) ≤ INT_MAX) :
    PRUETH_HEADROOM XDP_PACKET_HEADROOM NET_SKB_PAD NET_IP_ALIGN (2 ^ k) =
      ALIGN (PRUETH_HEADROOM_NA XDP_PACKET_HEADROOM NET_SKB_PAD NET_IP_ALIGN)
        ((2 ^ k : Nat) : Int) ∧
    PRUETH_HEADROOM_NA XDP_PACKET_HEADROOM NET_SKB_PAD NET_IP_ALIGN =
      ((max XDP_PACKET_HEADROOM NET_SKB_PAD + NET_IP_ALIGN : Nat) : Int) ∧
    ((2 ^ k : Nat) : Int) ∣
      PRUETH_HEADROOM XDP_PACKET_HEADROOM NET_SKB_PAD NET_IP_ALIGN (2 ^ k) ∧
    PRUETH_HEADROOM_NA XDP_PACKET_HEADROOM NET_SKB_PAD NET_IP_ALIGN ≤
      PRUETH_HEADROOM XDP_PACKET_HEADROOM NET_SKB_PAD NET_IP_ALIGN (2 ^ k) ∧
    PRUETH_HEADROOM XDP_PACKET_HEADROOM NET_SKB_PAD NET_IP_ALIGN (2 ^ k) <
      PRUETH_HEADROOM_NA XDP_PACKET_HEADROOM NET_SKB_PAD NET_IP_ALIGN + ((2 ^ k : Nat) : Int) ∧
    (∀ m : Int, ((2 ^ k : Nat) : Int) ∣ m →
      PRUETH_HEADROOM_NA XDP_PACKET_HEADROOM NET_SKB_PAD NET_IP_ALIGN ≤ m →
      PRUETH_HEADROOM XDP_PACKET_HEADROOM NET_SKB_PAD NET_IP_ALIGN (2 ^ k) ≤ m) ∧
    (((2 ^ k : Nat) : Int) ∣ PRUETH_HEADROOM_NA XDP_PACKET_HEADROOM NET_SKB_PAD NET_IP_ALIGN →
      PRUETH_HEADROOM XDP_PACKET_HEADROOM NET_SKB_PAD NET_IP_ALIGN (2 ^ k) =
        PRUETH_HEADROOM_NA XDP_PACKET_HEADROOM NET_SKB_PAD NET_IP_ALIGN) := by
  have hpos : 0 < 2 ^ k := Nat.two_pow_pos k
  have hna : max XDP_PACKET_HEADROOM NET_SKB_PAD + NET_IP_ALIGN ≤ INT_MAX := by omega
  have hb := roundUp_bounds (max XDP_PACKET_HEADROOM NET_SKB_PAD + NET_IP_ALIGN) (2 ^ k) hpos
  have hleast : ∀ m : Int, ((2 ^ k : Nat) : Int) ∣ m →
      ((max XDP_PACKET_HEADROOM NET_SKB_PAD + NET_IP_ALIGN : Nat) : Int) ≤ m →
      ((roundUp (max XDP_PACKET_HEADROOM NET_SKB_PAD + NET_IP_ALIGN) (2 ^ k) : Nat) : Int)
        ≤ m := by
    intro m hdvd hle
    have hm0 : 0 ≤ m := le_trans (Int.ofNat_nonneg _) hle
    obtain ⟨j, rfl⟩ := Int.eq_ofNat_of_zero_le hm0
    rw [Int.natCast_dvd_natCast] at hdvd
    have hle2 : max XDP_PACKET_HEADROOM NET_SKB_PAD + NET_IP_ALIGN ≤ j := by omega
    exact Int.ofNat_le.mpr (roundUp_least _ _ j hpos hdvd hle2)
  refine ⟨rfl, headroom_na_cast _ _ _ hna, ?_, ?_, ?_, ?_, ?_⟩
  · rw [headroom_cast _ _ _ _ h, Int.natCast_dvd_natCast]
    exact roundUp_dvd _ _
  · rw [headroom_cast _ _ _ _ h, headroom_na_cast _ _ _ hna]
    omega
  · rw [headroom_cast _ _ _ _ h, headroom_na_cast _ _ _ hna]
    omega
  · rw [headroom_cast _ _ _ _ h, headroom_na_cast _ _ _ hna]
    exact hleast
  · rw [headroom_cast _ _ _ _ h, headroom_na_cast _ _ _ hna]
    intro hdvd
    have h1 := hleast _ hdvd (le_refl _)
    omega

/-- Witness for C5: with `XDP_PACKET_HEADROOM = 256`, `NET_SKB_PAD = 64`, `NET_IP_ALIGN = 0`
and `sizeof(long) = 8` nothing overflows, the unaligned value 256 is a multiple of 8 and is
left unchanged. -/
theorem headroom_rounding_witness :
    max 256 64 + 0 + (2 ^ 3 - 1) ≤ INT_MAX ∧
    ((2 ^ 3 : Nat) : Int) ∣ PRUETH_HEADROOM_NA 256 64 0 ∧
    PRUETH_HEADROOM 256 64 0 (2 ^ 3) = PRUETH_HEADROOM_NA 256 64 0 :=
  ⟨by decide, by decide, (headroom_rounding 256 64 0 3 (by decide)).2.2.2.2.2.2 (by decide)⟩

/-- Counterexample to C5 as stated: with `XDP_PACKET_HEADROOM = 2147483647`,
`NET_SKB_PAD = 64`, `NET_IP_ALIGN = 0` and `sizeof(long) = 8` the unaligned value is
`n = 2147483647`, the `int` addition inside `ALIGN` wraps, and `PRUETH_HEADROOM` is less
than `n`, so it is not the least multiple of 8 that is not less than `n`. -/
theorem headroom_rounding_counterexample :
    PRUETH_HEADROOM_NA 2147483647 64 0 = 2147483647 ∧
    ¬ (PRUETH_HEADROOM_NA 2147483647 64 0 ≤ PRUETH_HEADROOM 2147483647 64 0 (2 ^ 3)) := by
  constructor <;> decide

end Prueth
